import Mathlib

/-!
Verification of the sonic-anemometer analysis engine (`src/sonic.py`) against its
natural-language specification.  The Python data frames, the per-window analysis
pipeline and the batch orchestration are shallowly embedded below; machine floats
are modelled by exact rationals or reals, with IEEE non-finite outcomes (NaN/inf
produced by a zero divisor) modelled as `Option.none`, and Python exceptions as
`Except` errors.
-/

set_option maxRecDepth 4000

/-- A pandas `DataFrame` as used by `sonic.py`: a timestamp-derived index plus
named numeric columns.  `α` is `ℚ` for exactly-representable arithmetic, `ℝ`
where the source takes square roots or applies trigonometry, and `Option ℝ`
where NaN (missing value) propagation matters. -/
structure Frame (α : Type) where
  idx : List ℚ
  cols : List (String × List α)
deriving Repr

/-- `df[c]` when the column may be absent (a missing column raises `KeyError`
in pandas, so lookup is partial). -/
def Frame.getCol? {α : Type} (df : Frame α) (c : String) : Option (List α) :=
  (df.cols.find? (fun p => p.1 == c)).map Prod.snd

/-- Column lookup with the empty column as default; theorems that need the
column to exist carry that as a hypothesis. -/
def Frame.getColD {α : Type} (df : Frame α) (c : String) : List α :=
  (df.getCol? c).getD []

/-- Does the frame have a column named `c`? -/
def Frame.hasCol {α : Type} (df : Frame α) (c : String) : Bool :=
  df.cols.any (fun p => p.1 == c)

/-- `df[c] = v`: pandas replaces an existing column in place and appends a new
one otherwise.  The index is untouched. -/
def Frame.setCol {α : Type} (df : Frame α) (c : String) (v : List α) : Frame α :=
  if df.hasCol c then
    ⟨df.idx, df.cols.map (fun p => if p.1 == c then (p.1, v) else p)⟩
  else
    ⟨df.idx, df.cols ++ [(c, v)]⟩

/-- `len(df)`: the number of rows. -/
def Frame.nrows {α : Type} (df : Frame α) : ℕ := df.idx.length

/-- `df.iloc[:n]`, row-wise prefix of a frame. -/
def Frame.takeRows {α : Type} (df : Frame α) (n : ℕ) : Frame α :=
  ⟨df.idx.take n, df.cols.map (fun p => (p.1, p.2.take n))⟩

/-- `df.iloc[n:]`, row-wise suffix of a frame. -/
def Frame.dropRows {α : Type} (df : Frame α) (n : ℕ) : Frame α :=
  ⟨df.idx.drop n, df.cols.map (fun p => (p.1, p.2.drop n))⟩

/-- `np.mean` of a pandas series without missing values: sum over length. -/
def listMean {α : Type} [DivisionRing α] (x : List α) : α :=
  x.sum / x.length

/-- Sizes of the chunks produced by `np.array_split(xs, k)`: the first
`len % k` chunks have `len // k + 1` elements, the rest `len // k`. -/
def splitSizes (len k : ℕ) : List ℕ :=
  (List.range k).map (fun i => if i < len % k then len / k + 1 else len / k)

/-- Cut a list into consecutive chunks of the given sizes. -/
def takeChunks {α : Type} : List ℕ → List α → List (List α)
  | [], _ => []
  | n :: ns, xs => xs.take n :: takeChunks ns (xs.drop n)

/-- `np.array_split(xs, k)` for a plain list. -/
def arraySplitList {α : Type} (xs : List α) (k : ℕ) : List (List α) :=
  takeChunks (splitSizes xs.length k) xs

/-- Cut a frame into consecutive row-chunks of the given sizes. -/
def frameChunks {α : Type} : List ℕ → Frame α → List (Frame α)
  | [], _ => []
  | n :: ns, df => df.takeRows n :: frameChunks ns (df.dropRows n)

/-- `np.array_split(df, k)` for a frame: split along the row axis into `k`
near-equal consecutive pieces. -/
def arraySplitFrame {α : Type} (df : Frame α) (k : ℕ) : List (Frame α) :=
  frameChunks (splitSizes df.nrows k) df

/-- Lag labels `k, k+1, ..., k+n-1` as rationals (1 Hz sampling labels). -/
def qlags (k n : ℕ) : List ℚ := (List.range' k n).map (fun i : ℕ => (i : ℚ))


/-! ## Window pipeline control flow (`_analyze_file`, lines 517-692)

The per-window pipeline builds a comma-separated summary string and finally
calls `append_summary`.  For the reachability claims only the control flow and
the set of emitted fields matter, so the pipeline is embedded as a function
from the configuration to either the list of summary fields appended, or the
Python exception raised on the way.  Local variables that are only assigned
inside conditional blocks (`delta_dir`, `derived`, `scales`) are tracked as
definedness flags: reading an unassigned local raises `NameError` in Python. -/

/-- Python exceptions that `_analyze_file` can raise after a successful load:
reading `delta_dir` (line 673), `derived` (line 677) or `scales` (line 686)
when the branch that assigns it was disabled. -/
inductive PyNameErr
  | deltaDirUndefined
  | derivedUndefined
  | scalesUndefined
deriving DecidableEq, Repr

/-- The summary-row fields of `_analyze_file`, in emission order. -/
inductive SummaryField
  | startT | endT | meanU | meanV | meanW
  | slowMeanU | slowMeanV
  | alphaMean | alphaMedian | ribMean | ribMedian | lapseMean | lapseMedian
  | rmsF | rmsSlow | tiF | tiSlow | tkeF
  | fluxRiF | wuF | wvF | wtF | obukhovF | zetaF | ustarF | ugradF
  | lengthScaleF | deltaDirF
  | rmsChangeF | ssDevF | itcDevF | sflagF | urflagF
deriving DecidableEq, Repr

/-- The per-window configuration consumed by `_analyze_file` (the argument
tuple of line 518, restricted to the flags that steer the summary row). -/
structure WindowConfig where
  hasSlow : Bool
  hasMatch : Bool
  align : Bool
  savecopy : Bool
  plotdata : Bool
  plotautocorrs : Bool
  saveautocorrs : Bool
  plotflux : Bool
  saveflux : Bool
  savescales : Bool
  direction : Bool
  qc : Bool
deriving DecidableEq, Repr

/-- The window configuration with every optional stage disabled. -/
def allOptionalOff : WindowConfig :=
  ⟨false, false, false, false, false, false, false, false, false, false, false, false⟩

/-- Control-flow embedding of `_analyze_file` (lines 536-692) after a
successful `load_frame`.  Mirrors the source order exactly:
mandatory fields (line 551), slow means (554), match fields (596-604),
rms/ti (611/615), tke (620), flux fields (657, only if `saveflux`; `derived`
is assigned at 644 only if `plotflux or saveflux`), length scale (669, only if
`savescales`, where `scales` is assigned at 665), `delta_dir` (673, assigned
at 561 only if `align` and slow data exist), qc fields (684, reading
`derived`), then the logging loop over `scales.items()` (line 686, outside
the `savescales` guard) and finally `append_summary` (line 692).
Returns the fields of the single appended row, or the exception raised. -/
def analyzeFileSummary (cfg : WindowConfig) : Except PyNameErr (List SummaryField) :=
  let s := [SummaryField.startT, SummaryField.endT, SummaryField.meanU,
            SummaryField.meanV, SummaryField.meanW]
  let s := if cfg.hasSlow then s ++ [SummaryField.slowMeanU, SummaryField.slowMeanV] else s
  let deltaDirDefined := cfg.align && cfg.hasSlow
  let s := if cfg.hasMatch then
      s ++ [SummaryField.alphaMean, SummaryField.alphaMedian, SummaryField.ribMean,
            SummaryField.ribMedian, SummaryField.lapseMean, SummaryField.lapseMedian]
    else s
  let s := s ++ (if cfg.hasSlow then
      [SummaryField.rmsF, SummaryField.rmsSlow, SummaryField.tiF, SummaryField.tiSlow]
    else [SummaryField.rmsF, SummaryField.tiF])
  let s := s ++ [SummaryField.tkeF]
  let derivedDefined := cfg.plotflux || cfg.saveflux
  let s := if cfg.saveflux then
      s ++ [SummaryField.fluxRiF, SummaryField.wuF, SummaryField.wvF, SummaryField.wtF,
            SummaryField.obukhovF, SummaryField.zetaF, SummaryField.ustarF, SummaryField.ugradF]
    else s
  let scalesDefined := cfg.savescales
  let s := if cfg.savescales then s ++ [SummaryField.lengthScaleF] else s
  if cfg.direction && !deltaDirDefined then .error .deltaDirUndefined else
  let s := if cfg.direction then s ++ [SummaryField.deltaDirF] else s
  if cfg.qc && !derivedDefined then .error .derivedUndefined else
  let s := if cfg.qc then
      s ++ [SummaryField.rmsChangeF, SummaryField.ssDevF, SummaryField.itcDevF,
            SummaryField.sflagF, SummaryField.urflagF]
    else s
  if !scalesDefined then .error .scalesUndefined else
  .ok s

/-! ## Batch orchestration (`analyze_directory`, lines 694-776)

`_analyze_file` loads each window with `load_frame` (line 534) with no
`try`/`except` around it: a file whose timestamps do not parse raises inside
the worker.  `multiprocessing.Pool.map` groups the tasks into chunks
(`chunksize = ceil(ntasks / (4 * nproc))`), a worker aborts the remainder of a
chunk at the first exception while other chunks still run, and `pool.map`
re-raises the exception to `analyze_directory`, which does not catch it
either.  Rows are appended to the summary file by each worker as a side
effect, so the rows of tasks that did run survive the abort. -/

/-- What `_analyze_file` sees of one directory entry: whether the path is a
regular file, whether its name ends in `.csv`, and whether `load_frame` can
parse its timestamps. -/
structure FileSpec where
  isfile : Bool
  isCsv : Bool
  parses : Bool
deriving DecidableEq, Repr

/-- The exception escaping `_analyze_file` when `load_frame` fails. -/
inductive BatchErr
  | loadExn
deriving DecidableEq, Repr

/-- Load phase of `_analyze_file` (lines 525-534): non-files and non-`.csv`
names are skipped by the early `return` (no row, no logged error); a file with
unparsable timestamps raises out of `load_frame`; otherwise the window runs to
completion and appends one summary row (`some ()`). -/
def analyzeFileRow (f : FileSpec) : Except BatchErr (Option Unit) :=
  if !(f.isfile && f.isCsv) then .ok none
  else if !f.parses then .error .loadExn
  else .ok (some ())

/-- `multiprocessing.Pool.map` chunk size: `divmod(ntasks, nproc * 4)` rounded
up when there is a remainder. -/
def poolChunksize (ntasks nproc : ℕ) : ℕ :=
  if ntasks % (nproc * 4) == 0 then ntasks / (nproc * 4) else ntasks / (nproc * 4) + 1

/-- The chunk sizes a task list of length `len` is cut into for chunk size `k`. -/
def chunkSizes (len k : ℕ) : List ℕ :=
  List.replicate (len / k) k ++ (if len % k == 0 then [] else [len % k])

/-- A worker running one chunk (`mapstar`): tasks run in order, and the first
exception aborts the rest of the chunk.  Returns the number of summary rows
appended by the chunk and the exception, if any. -/
def runChunk : List FileSpec → ℕ × Option BatchErr
  | [] => (0, none)
  | f :: fs =>
    match analyzeFileRow f with
    | .error e => (0, some e)
    | .ok none => runChunk fs
    | .ok (some _) => let r := runChunk fs; (r.1 + 1, r.2)

/-- `pool.map(_analyze_file, tasks)`: all chunks are executed, the summary
rows appended by each surviving prefix accumulate in the shared file, and the
first chunk exception is re-raised after all chunks finish. -/
def poolMapRows (files : List FileSpec) (nproc : ℕ) : ℕ × Option BatchErr :=
  let chunks := takeChunks (chunkSizes files.length (poolChunksize files.length nproc)) files
  chunks.foldl (fun acc ch => let r := runChunk ch; (acc.1 + r.1, acc.2 <|> r.2)) (0, none)

/-- `analyze_directory` (lines 764-772): dispatch all windows through the
pool; the count is the number of rows in the summary table afterwards, and a
`some` error means the uncaught worker exception aborted the batch (the
closing `COMPLETED!` log of line 774 is never reached). -/
def analyzeDirectoryRows (files : List FileSpec) (nproc : ℕ) : ℕ × Option BatchErr :=
  poolMapRows files nproc

/-! ## Covariance and instationarity (`covariance`, `covar_instationarity`,
lines 429-447) -/

/-- `covariance(df, cols)` (lines 429-434): the single-pass sample covariance
`(sum(x*z) - sum(x)*sum(z)/len(df)) / (len(df) - 1)` of two columns. -/
def covariance (df : Frame ℚ) (c0 c1 : String) : ℚ :=
  let x := df.getColD c0
  let z := df.getColD c1
  let sumxz := (List.zipWith (fun a b => a * b) x z).sum
  let sumx := x.sum
  let sumz := z.sum
  (sumxz - (sumx * sumz) / (df.nrows : ℚ)) / ((df.nrows : ℚ) - 1)

/-- `covar_instationarity(df, subintervals)` (lines 436-447), the Foken-Wichura
relative instationarity of the Ux/Uz covariance.  The source computes
`np.abs((meancov - fullcov) / fullcov)` unconditionally; when `fullcov` is
exactly zero the IEEE quotient is non-finite (NaN when `meancov - fullcov` is
also zero, signed infinity otherwise), which the embedding models as `none`.
There is no guarding branch and no sentinel value in the source. -/
def covarInstationarity (df : Frame ℚ) (subintervals : ℕ) : Option ℚ :=
  let covs := (arraySplitFrame df subintervals).map (fun s => covariance s "Ux" "Uz")
  let meancov := covs.sum / (covs.length : ℚ)
  let fullcov := covariance df "Ux" "Uz"
  if fullcov = 0 then none
  else some |(meancov - fullcov) / fullcov|

/-- A window with constant `Ux` and `Uz` wind components (the boundary case of
the spec's example: zero fluctuation). -/
def constFrame (idx : List ℚ) (a b : ℚ) : Frame ℚ :=
  ⟨idx, [("Ux", List.replicate idx.length a), ("Uz", List.replicate idx.length b)]⟩

/-! ## Integral scales (`integral_scales`, lines 140-181)

`integral_scales(df, df_autocorr, cols, threshold)` scans each requested
channel's autocorrelation column for the first value below the threshold
(`cutoff_index` stays 0 when none is found, line 163-167), flags a warning
when `cutoff_index == 0` (line 169), and integrates
`np.sum(Raa.loc[:cutoff_index]) * dt` (line 174).  `Raa` is indexed by lag in
seconds, so `.loc[:cutoff_index]` is a label-based slice: it sums the values
at all lags `<= cutoff_index` seconds, where `cutoff_index` is the positional
index found by the scan.  `dt` is `index[1] - index[0]` and the channel mean
comes from the original data frame. -/

/-- The scan of lines 163-167: the first position whose value is below the
threshold, or 0 if no value is. -/
def cutoffIndex (Raa : List ℚ) (threshold : ℚ) : ℕ :=
  match Raa.findIdx? (fun v => v < threshold) with
  | some i => i
  | none => 0

/-- `Raa.loc[:c]` for a series with index `lags` and values `vals` (sorted
label-based slice): the values at labels `<= c`. -/
def locUpTo (lags vals : List ℚ) (c : ℚ) : List ℚ :=
  ((lags.zip vals).filter (fun p => p.1 ≤ c)).map Prod.snd

/-- The loop body of `integral_scales` for one channel (lines 156-179):
returns the pair (integral time scale, integral length scale). -/
def integralScaleBody (df dfac : Frame ℚ) (threshold : ℚ) (col : String) : ℚ × ℚ :=
  let Raa := dfac.getColD ("R_" ++ col)
  let lags := dfac.idx
  let dt := lags.getD 1 0 - lags.getD 0 0
  let mean := listMean (df.getColD col)
  let c := cutoffIndex Raa threshold
  let iTime := (locUpTo lags Raa (c : ℚ)).sum * dt
  let iLength := |iTime * mean|
  (iTime, iLength)

/-- Result of `integral_scales`: the `scales` dict and the `warn` flag. -/
structure ScalesOut where
  scales : String → Option (ℚ × ℚ)
  warn : Bool

/-- One iteration of the `for col in cols` loop of `integral_scales`:
store the channel's pair in the dict and accumulate the warning flag
(`warn` is set when `cutoff_index == 0` and never reset). -/
def scalesStep (df dfac : Frame ℚ) (threshold : ℚ) (acc : ScalesOut) (col : String) :
    ScalesOut :=
  ⟨fun x => if x = col then some (integralScaleBody df dfac threshold col) else acc.scales x,
   acc.warn || (cutoffIndex (dfac.getColD ("R_" ++ col)) threshold == 0)⟩

/-- `integral_scales(df, df_autocorr, cols, threshold)` (lines 140-181) for a
caller-supplied non-empty `cols` list (the mutable-default repopulation of
lines 150-153 is not exercised by the pipeline, which always passes `cols`). -/
def integralScales (df dfac : Frame ℚ) (cols : List String) (threshold : ℚ) : ScalesOut :=
  cols.foldl (scalesStep df dfac threshold) ⟨fun _ => none, false⟩

/-- Follows the spec's words for claim C4: when no autocorrelation value falls
below the threshold "the scale is computed over the entire table" - the
rectangular sum of the whole column times the spacing. -/
def integralTimeScaleWholeTable (dfac : Frame ℚ) (col : String) : ℚ :=
  let Raa := dfac.getColD ("R_" ++ col)
  let dt := dfac.idx.getD 1 0 - dfac.idx.getD 0 0
  Raa.sum * dt

/-- Follows the spec's words for claim C5: the "rectangular sum of the
autocorrelation values from lag 0 through the cutoff index" (a positional
slice) "multiplied by the uniform sample spacing". -/
def integralTimeScaleRect (dfac : Frame ℚ) (col : String) (threshold : ℚ) : ℚ :=
  let Raa := dfac.getColD ("R_" ++ col)
  let dt := dfac.idx.getD 1 0 - dfac.idx.getD 0 0
  (Raa.take (cutoffIndex Raa threshold + 1)).sum * dt

/-! ## RMS and its subinterval variation (`compute_rms`, `rms_variation`,
lines 409-416 and 473-485)

These need real square roots, so they live over `ℝ`. -/

/-- `np.min` over a non-empty list (numpy raises on an empty one; the empty
case is given an arbitrary value and is never reached by the claims). -/
noncomputable def listMin : List ℝ → ℝ
  | [] => 0
  | x :: xs => xs.foldl min x

/-- `np.max` over a non-empty list. -/
noncomputable def listMax : List ℝ → ℝ
  | [] => 0
  | x :: xs => xs.foldl max x

/-- `compute_rms(df, direction)` (lines 409-416): the RMS of the fluctuation
of one wind column (`np.mean(squared) ** 0.5`, the square root of the mean
squared fluctuation - the mean square is non-negative, so `** 0.5` is exactly
the real square root) together with the estimated turbulence intensity
`rms / np.abs(mean)`.  The source returns BOTH numbers as a tuple. -/
noncomputable def computeRms (df : Frame ℝ) (direction : String) : ℝ × ℝ :=
  let x := df.getColD direction
  let mean := listMean x
  let flux := x.map (fun v => v - mean)
  let squared := flux.map (fun v => v * v)
  let rms := Real.sqrt (listMean squared)
  (rms, rms / |mean|)

/-- `rms_variation(df, subintervals, which)` (lines 473-485).  For each
channel the source appends the whole `(rms, ti)` tuple returned by
`compute_rms` to `rmss`, so `np.min(rmss)` and `np.max(rmss)` reduce over the
flattened `(subintervals, 2)` array - over the pooled RMS AND turbulence
intensity values, not over the RMS values alone. -/
noncomputable def rmsVariation (df : Frame ℝ) (subintervals : ℕ) (which : List String) : ℝ :=
  let subdfs := arraySplitFrame df subintervals
  let instations := which.map (fun col =>
    let rmss := subdfs.map (fun s => computeRms s col)
    let flat := rmss.flatMap (fun p => [p.1, p.2])
    let minrms := listMin flat
    let maxrms := listMax flat
    |(maxrms - minrms) / minrms|)
  listMax instations

/-- Follows the spec's words for claim C6: per channel compute the RMS (only)
in each subinterval and take `(max - min) / min` of those RMS values; return
the largest across channels. -/
noncomputable def rmsVariationSpec (df : Frame ℝ) (subintervals : ℕ)
    (which : List String) : ℝ :=
  let subdfs := arraySplitFrame df subintervals
  let instations := which.map (fun col =>
    let rmss := subdfs.map (fun s => (computeRms s col).1)
    let minrms := listMin rmss
    let maxrms := listMax rmss
    |(maxrms - minrms) / minrms|)
  listMax instations

/-! ## Eddy fluxes (`compute_fluxes`, lines 332-367)

Missing values (NaN) matter here, so channels are `List (Option ℝ)`.
`np.mean` on a pandas series dispatches to `Series.mean`, which skips NaN and
yields NaN only when no valid sample exists; series arithmetic propagates NaN
pointwise.  `helper_functions.obukhov_length` and
`helper_functions.flux_richardson` are not part of this repository's sources;
per the spec they are closed-form scalar maps, so `computeFluxes` takes them
as parameters (`fluxRichF` is called with `report_gradient=True` and returns
the pair (flux Richardson number, vertical wind gradient)). -/

/-- `Series.mean` with `skipna=True`: the mean of the non-missing entries,
`none` (NaN) when there is none. -/
noncomputable def nanMean (x : List (Option ℝ)) : Option ℝ :=
  let vs := x.filterMap id
  if vs.isEmpty then none else some (vs.sum / (vs.length : ℝ))

/-- The number of non-missing samples of a channel. -/
def countValid (x : List (Option ℝ)) : ℕ := (x.filterMap id).length

/-- `series - mean`: NaN entries and a NaN mean both propagate. -/
noncomputable def subMean (x : List (Option ℝ)) (m : Option ℝ) : List (Option ℝ) :=
  x.map (fun v => do pure ((← v) - (← m)))

/-- Pointwise product of two aligned series with NaN propagation. -/
noncomputable def seriesMul (a b : List (Option ℝ)) : List (Option ℝ) :=
  List.zipWith (fun p q => do pure ((← p) * (← q))) a b

/-- The `derived` dictionary filled by `compute_fluxes` (lines 359-365). -/
structure FluxDerived where
  meanEddyUMomtFlux : Option ℝ
  meanEddyVMomtFlux : Option ℝ
  meanEddyHeatFlux : Option ℝ
  frictionVelocity : Option ℝ
  obukhovLength : Option ℝ
  fluxRi : Option ℝ
  verticalWindGradient : Option ℝ

/-- Result of `compute_fluxes`: the three per-timestamp eddy-flux series of
the `dff` frame and the `derived` scalars. -/
structure FluxOut where
  wu : List (Option ℝ)
  wv : List (Option ℝ)
  wt : List (Option ℝ)
  derived : FluxDerived

/-- `compute_fluxes(df, winds, temp)` (lines 332-367): Reynolds decomposition
(channel minus its skipna mean), eddy fluxes as fluctuation products,
`u_star = (mean(wu)**2 + mean(wv)**2) ** (1/4)` (the base is a sum of squares,
so the fractional power is `Real.rpow` on a non-negative base), and the
derived parameters via the external helper functions.  There is no sample
count validation anywhere in the function and no raise path: it always
returns, with NaN (`none`) propagating through every affected output. -/
noncomputable def computeFluxes (obukhovLenF : ℝ → ℝ → ℝ → ℝ)
    (fluxRichF : ℝ → ℝ → ℝ → ℝ → ℝ × ℝ)
    (df : Frame (Option ℝ)) (winds : String × String × String) (temp : String) :
    FluxOut :=
  let ucol := winds.1
  let vcol := winds.2.1
  let wcol := winds.2.2
  let meanU := nanMean (df.getColD ucol)
  let meanV := nanMean (df.getColD vcol)
  let meanW := nanMean (df.getColD wcol)
  let meanT := nanMean (df.getColD temp)
  let fluxU := subMean (df.getColD ucol) meanU
  let fluxV := subMean (df.getColD vcol) meanV
  let fluxW := subMean (df.getColD wcol) meanW
  let fluxT := subMean (df.getColD temp) meanT
  let eddyUMomt := seriesMul fluxW fluxU
  let eddyVMomt := seriesMul fluxW fluxV
  let eddyHeat := seriesMul fluxW fluxT
  let meanEddyU := nanMean eddyUMomt
  let meanEddyV := nanMean eddyVMomt
  let meanEddyH := nanMean eddyHeat
  let uStar : Option ℝ := do pure ((((← meanEddyU) ^ 2 + (← meanEddyV) ^ 2) : ℝ) ^ ((1 : ℝ) / 4))
  let obuk : Option ℝ := do pure (obukhovLenF (← uStar) (← meanT) (← meanEddyH))
  let riPair : Option (ℝ × ℝ) := do
    pure (fluxRichF (← meanEddyU) (← meanT) (← meanEddyH) (← uStar))
  { wu := eddyUMomt, wv := eddyVMomt, wt := eddyHeat,
    derived :=
      { meanEddyUMomtFlux := meanEddyU, meanEddyVMomtFlux := meanEddyV,
        meanEddyHeatFlux := meanEddyH, frictionVelocity := uStar,
        obukhovLength := obuk, fluxRi := riPair.map Prod.fst,
        verticalWindGradient := riPair.map Prod.snd } }

/-! ## Geometric alignment (`mean_direction`, `align_to_direction`,
lines 268-292) -/

/-- `align_to_direction(df, dir_to_align, components)` (lines 280-292):
read the two wind columns, form the in-plane rotation
`ux' = ux*cos(t) + uy*sin(t)`, `uy' = -ux*sin(t) + uy*cos(t)`, copy the frame
and overwrite the two columns on the copy.  A missing component column raises
`KeyError` in pandas, modelled as `none`. -/
noncomputable def alignToDirection (df : Frame ℝ) (dirToAlign : ℝ)
    (components : String × String) : Option (Frame ℝ) :=
  match df.getCol? components.1, df.getCol? components.2 with
  | some ux, some uy =>
    let uxAligned := List.zipWith
      (fun x y => x * Real.cos dirToAlign + y * Real.sin dirToAlign) ux uy
    let uyAligned := List.zipWith
      (fun x y => -x * Real.sin dirToAlign + y * Real.cos dirToAlign) ux uy
    some ((df.setCol components.1 uxAligned).setCol components.2 uyAligned)
  | _, _ => none

/-! ## Autocorrelation (`compute_autocorrs`, lines 64-107)

`df[col].autocorr(lag)` is the Pearson correlation of the series with its
`lag`-shifted copy: the correlation of the length-`(n-lag)` overlapping prefix
and suffix, `cov(x,y) / (sqrt(cov(x,x)) * sqrt(cov(y,y)))` (the `ddof`
normalisation cancels in the ratio). -/

/-- Sample covariance of two aligned series (denominator `n - 1`; the value
for `n <= 1` is never used under the claims' nonzero-variance hypothesis). -/
noncomputable def sampleCov (x y : List ℝ) : ℝ :=
  (List.zipWith (fun a b => (a - listMean x) * (b - listMean y)) x y).sum /
    ((x.length : ℝ) - 1)

/-- Pearson correlation of two aligned series. -/
noncomputable def pearson (x y : List ℝ) : ℝ :=
  sampleCov x y / (Real.sqrt (sampleCov x x) * Real.sqrt (sampleCov y y))

/-- `Series.autocorr(lag)`: Pearson correlation of the overlapping prefix and
suffix at the given lag. -/
noncomputable def autocorrAt (x : List ℝ) (lag : ℕ) : ℝ :=
  pearson (x.take (x.length - lag)) (x.drop lag)

/-- `kept = int(len(df) * maxlag)` (line 75). -/
def keptCount (n : ℕ) (maxlag : ℚ) : ℕ :=
  (⌊(n : ℚ) * maxlag⌋).toNat

/-- The `R_col` column built by `compute_autocorrs` (lines 90-94): the channel
autocorrelated at every lag in `range(kept)`. -/
noncomputable def computeAutocorrsCol (x : List ℝ) (maxlag : ℚ) : List ℝ :=
  (List.range (keptCount x.length maxlag)).map (autocorrAt x)

/-! ## Concrete inputs for counterexamples and witnesses -/

/-- A well-formed window file: a regular `.csv` file with parsable timestamps. -/
def goodFile : FileSpec := ⟨true, true, true⟩

/-- A deliberately corrupted window file: a regular `.csv` file whose
timestamps do not parse. -/
def corruptFile : FileSpec := ⟨true, true, false⟩

/-- A batch of 5 files with exactly one corrupted file (first in the listing). -/
def batchFiles : List FileSpec := [corruptFile, goodFile, goodFile, goodFile, goodFile]

/-- 12 samples of constant wind: `Ux = 1`, `Uz = 2` throughout. -/
def constWindFrame : Frame ℚ := constFrame (qlags 0 12) 1 2

/-- Original data frame for the C4 counterexample: channel `Ux` with mean 2. -/
def c4DataFrame : Frame ℚ := ⟨[0, 1], [("Ux", [2, 2])]⟩

/-- Autocorrelation table for the C4 counterexample: lags at 0.5 s spacing,
every value at or above the 1/4 threshold. -/
def c4AutoTable : Frame ℚ :=
  ⟨[0, 1/2, 1, 3/2], [("R_Ux", [1, 9/10, 4/5, 7/10])]⟩

/-- Original data frame for the C5 counterexample: channel `Ux` with mean 3. -/
def c5DataFrame : Frame ℚ := ⟨[0, 1], [("Ux", [3, 3])]⟩

/-- Autocorrelation table for the C5 counterexample: lags at 0.5 s spacing,
first value below the 1/4 threshold at position 2 (lag 1.0 s). -/
def c5AutoTable : Frame ℚ :=
  ⟨[0, 1/2, 1, 3/2], [("R_Ux", [1, 4/5, 1/10, 9/10])]⟩

/-- Data frame for the C5 witness: 1 Hz lag labels (lag equals position). -/
def c5WitnessData : Frame ℚ := ⟨[0, 1, 2], [("Ux", [3, 3, 3])]⟩

/-- Autocorrelation table for the C5 witness: integer lags 0, 1, 2. -/
def c5WitnessTable : Frame ℚ := ⟨[0, 1, 2], [("R_Ux", [1, 1/10, 1/2])]⟩

/-- Data frame for the C4 witness: two rows, channel `Ux`. -/
def c4WitnessData : Frame ℚ := ⟨[0, 1], [("Ux", [2, 2])]⟩

/-- Autocorrelation table for the C4 witness: no value below the threshold. -/
def c4WitnessTable : Frame ℚ := ⟨[0, 1/2], [("R_Ux", [1, 9/10])]⟩

/-- 8 samples of a single wind channel, split by `rms_variation` into two
subintervals [1,1,7,7] (RMS 3, TI 3/4) and [2,2,4,4] (RMS 1, TI 1/3). -/
def rmsVarFrame : Frame ℝ :=
  ⟨[0, 1, 2, 3, 4, 5, 6, 7], [("Ux", [1, 1, 7, 7, 2, 2, 4, 4])]⟩

/-- 4 samples with constant winds and an entirely missing sonic temperature
channel (0 non-missing `Ts` samples, hence fewer than 2). -/
def missingTempFrame : Frame (Option ℝ) :=
  ⟨[0, 1, 2, 3],
   [("Ux", [some 1, some 1, some 1, some 1]),
    ("Uy", [some 1, some 1, some 1, some 1]),
    ("Uz", [some 1, some 1, some 1, some 1]),
    ("Ts", [none, none, none, none])]⟩

/-- A small wind frame for the alignment witnesses. -/
def alignFrame : Frame ℝ := ⟨[0], [("Ux", [1]), ("Uy", [2]), ("Ts", [5])]⟩

/-- The frame `align_to_direction(alignFrame, 0, ("Ux","Uy"))` evaluates to:
rotation by angle 0 keeps both components. -/
def alignFrameRot0 : Frame ℝ := ⟨[0], [("Ux", [1]), ("Uy", [2]), ("Ts", [5])]⟩


/-! ## Helper lemmas -/

theorem Frame.idx_setCol {α : Type} (df : Frame α) (c : String) (v : List α) :
    (df.setCol c v).idx = df.idx := by
  unfold Frame.setCol
  split <;> rfl

theorem find?_map_set {α : Type} (l : List (String × List α)) (c : String) (v : List α)
    (h : l.any (fun p => p.1 == c) = true) :
    (((l.map (fun p => if p.1 == c then (p.1, v) else p)).find?
      (fun p => p.1 == c)).map Prod.snd) = some v := by
  induction l with
  | nil => simp at h
  | cons p t ih =>
    by_cases hp : (p.1 == c) = true
    · rw [List.map_cons, if_pos hp,
        @List.find?_cons_of_pos _ (fun q => q.1 == c) (p.1, v) _ hp]
      rfl
    · have hp' : (p.1 == c) = false := by rwa [← Bool.not_eq_true]
      rw [List.any_cons, hp', Bool.false_or] at h
      rw [List.map_cons, if_neg hp,
        @List.find?_cons_of_neg _ (fun q => q.1 == c) p _ hp]
      exact ih h

theorem find?_append_single {α : Type} (l : List (String × List α)) (c : String) (v : List α)
    (h : l.any (fun p => p.1 == c) = false) :
    (((l ++ [(c, v)]).find? (fun p => p.1 == c)).map Prod.snd) = some v := by
  induction l with
  | nil =>
    rw [List.nil_append,
      @List.find?_cons_of_pos _ (fun q => q.1 == c) (c, v) _ (by simp)]
    rfl
  | cons p t ih =>
    rw [List.any_cons, Bool.or_eq_false_iff] at h
    have hp : ¬(p.1 == c) = true := by simp [h.1]
    rw [List.cons_append, @List.find?_cons_of_neg _ (fun q => q.1 == c) p _ hp]
    exact ih h.2

theorem Frame.getCol?_setCol_self {α : Type} (df : Frame α) (c : String) (v : List α) :
    (df.setCol c v).getCol? c = some v := by
  unfold Frame.setCol Frame.getCol? Frame.hasCol
  split
  · next h => exact find?_map_set df.cols c v h
  · next h =>
    have h' : df.cols.any (fun p => p.1 == c) = false := by
      rwa [← Bool.not_eq_true]
    exact find?_append_single df.cols c v h'

theorem find?_map_set_ne {α : Type} (l : List (String × List α)) (c c' : String) (v : List α)
    (h : c' ≠ c) :
    (l.map (fun p => if p.1 == c then (p.1, v) else p)).find? (fun p => p.1 == c')
      = (l.find? (fun p => p.1 == c')).map (fun p => if p.1 == c then (p.1, v) else p) := by
  induction l with
  | nil => rfl
  | cons p t ih =>
    by_cases hq : (p.1 == c) = true
    · have hp : ¬(p.1 == c') = true := by
        rw [beq_iff_eq] at hq
        subst hq
        simpa using fun hc => h hc.symm
      rw [List.map_cons, if_pos hq,
        @List.find?_cons_of_neg _ (fun q => q.1 == c') (p.1, v) _ hp,
        @List.find?_cons_of_neg _ (fun q => q.1 == c') p _ hp, ih]
    · by_cases hp : (p.1 == c') = true
      · rw [List.map_cons, if_neg hq,
          @List.find?_cons_of_pos _ (fun q => q.1 == c') p _ hp,
          @List.find?_cons_of_pos _ (fun q => q.1 == c') p _ hp,
          Option.map_some', if_neg hq]
      · rw [List.map_cons, if_neg hq,
          @List.find?_cons_of_neg _ (fun q => q.1 == c') p _ hp,
          @List.find?_cons_of_neg _ (fun q => q.1 == c') p _ hp, ih]

theorem Frame.getCol?_setCol_ne {α : Type} (df : Frame α) (c c' : String) (v : List α)
    (h : c' ≠ c) : (df.setCol c v).getCol? c' = df.getCol? c' := by
  unfold Frame.setCol Frame.getCol? Frame.hasCol
  split
  · rw [find?_map_set_ne df.cols c c' v h]
    cases hf : df.cols.find? (fun p => p.1 == c') with
    | none => rfl
    | some p =>
      have hp : (p.1 == c') = true := @List.find?_some _ (fun q => q.1 == c') p df.cols hf
      have hq : p.1 ≠ c := by
        rw [beq_iff_eq] at hp
        rw [hp]
        exact h
      simp [hq]
  · rw [List.find?_append]
    cases hf : df.cols.find? (fun p => p.1 == c') with
    | none =>
      have hcv : ¬((c, v).1 == c') = true := by simpa using fun hc => h hc.symm
      rw [Option.none_or,
        @List.find?_cons_of_neg _ (fun q => q.1 == c') (c, v) _ hcv]
      rfl
    | some p => rfl

theorem zipWith_zipWith_pair {α β : Type} (f : β → β → β) (g h : α → α → β) (x y : List α) :
    List.zipWith f (List.zipWith g x y) (List.zipWith h x y) =
      List.zipWith (fun a b => f (g a b) (h a b)) x y := by
  induction x generalizing y with
  | nil => simp
  | cons a t ih =>
    cases y with
    | nil => simp
    | cons b s => simp [ih]

theorem zipWith_left_of_length_eq {α β : Type} (x : List α) (y : List β)
    (h : x.length = y.length) : List.zipWith (fun a _ => a) x y = x := by
  induction x generalizing y with
  | nil => simp
  | cons a t ih =>
    cases y with
    | nil => simp at h
    | cons b s =>
      simp only [List.length_cons, Nat.succ_inj'] at h
      simp [ih s h]

theorem zipWith_right_of_length_eq {α β : Type} (x : List α) (y : List β)
    (h : x.length = y.length) : List.zipWith (fun _ b => b) x y = y := by
  induction x generalizing y with
  | nil =>
    cases y with
    | nil => simp
    | cons b s => simp at h
  | cons a t ih =>
    cases y with
    | nil => simp at h
    | cons b s =>
      simp only [List.length_cons, Nat.succ_inj'] at h
      simp [ih s h]

theorem scalesFoldl_apply (df dfac : Frame ℚ) (thr : ℚ) (cols : List String)
    (acc : ScalesOut) (c : String) :
    (cols.foldl (scalesStep df dfac thr) acc).scales c
      = if c ∈ cols then some (integralScaleBody df dfac thr c) else acc.scales c := by
  induction cols generalizing acc with
  | nil => simp
  | cons x xs ih =>
    rw [List.foldl_cons, ih]
    by_cases hx : c ∈ xs
    · simp [hx, List.mem_cons]
    · by_cases he : c = x
      · subst he
        simp [hx, scalesStep]
      · simp [hx, he, scalesStep, List.mem_cons]

theorem scalesFoldl_warn (df dfac : Frame ℚ) (thr : ℚ) (cols : List String)
    (acc : ScalesOut) :
    (cols.foldl (scalesStep df dfac thr) acc).warn
      = (acc.warn ||
          cols.any (fun col => cutoffIndex (dfac.getColD ("R_" ++ col)) thr == 0)) := by
  induction cols generalizing acc with
  | nil => simp
  | cons x xs ih =>
    rw [List.foldl_cons, ih]
    simp [scalesStep, Bool.or_assoc]

theorem cutoffIndex_eq_zero_of_no_dip (Raa : List ℚ) (thr : ℚ)
    (h : ∀ v ∈ Raa, ¬ v < thr) : cutoffIndex Raa thr = 0 := by
  have hn : Raa.findIdx? (fun v => v < thr) = none :=
    List.findIdx?_eq_none_iff.mpr (fun x hx => by simpa using h x hx)
  simp [cutoffIndex, hn]

theorem locUpTo_head_only (ltail : List ℚ) (r0 : ℚ) (rest : List ℚ)
    (hpos : ∀ l ∈ ltail, 0 < l) :
    locUpTo (0 :: ltail) (r0 :: rest) 0 = [r0] := by
  unfold locUpTo
  rw [List.zip_cons_cons, List.filter_cons_of_pos (by simp)]
  have htail : (ltail.zip rest).filter (fun p => decide (p.1 ≤ 0)) = [] := by
    apply List.filter_eq_nil_iff.mpr
    intro p hp
    have hmem := List.of_mem_zip hp
    simpa using not_le.mpr (hpos p.1 hmem.1)
  rw [htail]
  rfl

theorem qlags_succ (k n : ℕ) : qlags k (n + 1) = (k : ℚ) :: qlags (k + 1) n := by
  simp [qlags, List.range'_succ]

theorem qlags_length (k n : ℕ) : (qlags k n).length = n := by
  induction n generalizing k with
  | zero => rfl
  | succ m ih => rw [qlags_succ, List.length_cons, ih]

theorem locUpTo_qlags (vals : List ℚ) (k c : ℕ) :
    locUpTo (qlags k vals.length) vals (c : ℚ)
      = if k ≤ c then vals.take (c + 1 - k) else [] := by
  induction vals generalizing k with
  | nil => simp [locUpTo, qlags]
  | cons v vs ih =>
    unfold locUpTo
    rw [List.length_cons, qlags_succ, List.zip_cons_cons]
    by_cases hk : k ≤ c
    · rw [List.filter_cons_of_pos (by simpa using (Nat.cast_le.mpr hk : ((k : ℚ) ≤ (c : ℚ))))]
      have hih := ih (k + 1)
      unfold locUpTo at hih
      rw [List.map_cons, hih]
      by_cases hk1 : k + 1 ≤ c
      · rw [if_pos hk1, if_pos hk]
        have hs : c + 1 - k = (c + 1 - (k + 1)) + 1 := by omega
        rw [hs, List.take_succ_cons]
      · rw [if_neg hk1, if_pos hk]
        have hs : c + 1 - k = 1 := by omega
        rw [hs, List.take_succ_cons, List.take_zero]
    · rw [List.filter_cons_of_neg
        (by simpa using (Nat.cast_lt.mpr (by omega : c < k) : ((c : ℚ) < (k : ℚ))))]
      have hih := ih (k + 1)
      unfold locUpTo at hih
      rw [hih, if_neg (by omega), if_neg hk]

/-! ## Claims -/

/-- C1: the claim says that with every optional stage disabled the window
still reaches the summarized state and appends a mandatory-fields summary row.
The code disagrees: the logging loop `for var, s in scales.items()` at line
686 sits outside the `if savescales:` block that assigns `scales` (lines
660-670), so with `savescales` disabled the window raises
`NameError: name 'scales' is not defined` before `append_summary` (line 692)
and no row is appended. -/
theorem c1_all_off_raises_scales_name_error :
    analyzeFileSummary allOptionalOff = .error .scalesUndefined := rfl

/-- C2: the claim says a window whose file fails to load is skipped with a
logged load error while the other windows complete, a 5-file batch with one
corrupted file yielding exactly 4 summary rows.  The code disagrees:
`load_frame` (line 534) is not guarded, so unparsable timestamps raise out of
the worker; `pool.map` aborts the rest of that worker chunk and re-raises, so
`analyze_directory` dies instead of completing.  With the corrupted file
first, its chunk partner is skipped too and only 3 rows are appended; the
per-window function propagates the load exception rather than skipping. -/
theorem c2_corrupted_file_aborts_batch :
    analyzeFileRow corruptFile = .error .loadExn ∧
    analyzeDirectoryRows batchFiles 1 = (3, some .loadExn) :=
  ⟨rfl, rfl⟩

/-- The single-pass covariance of two constant columns is exactly zero (shared
computation for the C3 statements). -/
theorem covariance_constFrame (idx : List ℚ) (a b : ℚ) (h : 2 ≤ idx.length) :
    covariance (constFrame idx a b) "Ux" "Uz" = 0 := by
  have hn : ((idx.length : ℚ)) ≠ 0 := by
    have h0 : (0 : ℚ) < (idx.length : ℚ) := by
      exact_mod_cast Nat.lt_of_lt_of_le Nat.zero_lt_two h
    exact ne_of_gt h0
  have hx : (constFrame idx a b).getColD "Ux" = List.replicate idx.length a := rfl
  have hz : (constFrame idx a b).getColD "Uz" = List.replicate idx.length b := rfl
  have hzip : List.zipWith (fun x y => x * y)
      (List.replicate idx.length a) (List.replicate idx.length b)
      = List.replicate idx.length (a * b) := by
    induction idx.length with
    | zero => rfl
    | succ n ih => simp [List.replicate_succ, ih]
  have hnr : (constFrame idx a b).nrows = idx.length := rfl
  simp only [covariance, hx, hz, hzip, hnr, List.sum_replicate, nsmul_eq_mul]
  have hmul : ((idx.length : ℚ) * a) * ((idx.length : ℚ) * b) / (idx.length : ℚ)
      = (idx.length : ℚ) * (a * b) := by
    field_simp
    ring
  rw [hmul, sub_self, zero_div]

/-- C3 counterexample: for a window of constant wind components the full
covariance of `Ux` and `Uz` is exactly zero, and `covar_instationarity`
performs its division anyway - the result is the non-finite IEEE quotient
(modelled `none`), not a documented sentinel value: the source has no guard
and silently divides by zero. -/
theorem c3_counterexample :
    covariance constWindFrame "Ux" "Uz" = 0 ∧
    covarInstationarity constWindFrame 6 = none := by
  have hlen : 2 ≤ (qlags 0 12).length := by
    rw [qlags_length]
    norm_num
  have hcov : covariance constWindFrame "Ux" "Uz" = 0 := by
    unfold constWindFrame
    exact covariance_constFrame (qlags 0 12) 1 2 hlen
  exact ⟨hcov, by simp [covarInstationarity, hcov]⟩

/-- C3 amended: when the full-window covariance of the first and third wind
components is exactly zero (as for any constant wind series of at least two
samples), `covar_instationarity` still divides by it; under IEEE arithmetic
the quotient is non-finite (NaN or signed infinity, modelled `none`).  It
does not crash, but it does not return a sentinel value either: the division
is silent. -/
theorem c3_zero_covariance_divides (idx : List ℚ) (a b : ℚ) (k : ℕ)
    (h : 2 ≤ idx.length) :
    covariance (constFrame idx a b) "Ux" "Uz" = 0 ∧
    covarInstationarity (constFrame idx a b) k = none := by
  have hcov := covariance_constFrame idx a b h
  exact ⟨hcov, by simp [covarInstationarity, hcov]⟩

/-- C3 witness: the amended theorem applied to an 11-sample constant wind
window with 6 subintervals. -/
theorem c3_zero_covariance_divides_witness :
    2 ≤ (qlags 0 11).length ∧
    (covariance (constFrame (qlags 0 11) 3 5) "Ux" "Uz" = 0 ∧
     covarInstationarity (constFrame (qlags 0 11) 3 5) 6 = none) :=
  ⟨by rw [qlags_length]; norm_num,
   c3_zero_covariance_divides (qlags 0 11) 3 5 6 (by rw [qlags_length]; norm_num)⟩

/-- Shared computation for C4: when no autocorrelation value dips below the
threshold, the warning is raised and the integration covers only the lag-0
entry. -/
theorem integralScales_no_dip (df dfac : Frame ℚ) (cols : List String)
    (col : String) (thr r0 : ℚ) (rest ltail : List ℚ)
    (hcol : col ∈ cols)
    (hR : dfac.getColD ("R_" ++ col) = r0 :: rest)
    (hidx : dfac.idx = 0 :: ltail)
    (hpos : ∀ l ∈ ltail, 0 < l)
    (hnb : ∀ v ∈ r0 :: rest, ¬ v < thr) :
    (integralScales df dfac cols thr).warn = true ∧
    (integralScales df dfac cols thr).scales col =
      some (r0 * (dfac.idx.getD 1 0 - dfac.idx.getD 0 0),
            |r0 * (dfac.idx.getD 1 0 - dfac.idx.getD 0 0) * listMean (df.getColD col)|) := by
  have hcut : cutoffIndex (dfac.getColD ("R_" ++ col)) thr = 0 := by
    rw [hR]
    exact cutoffIndex_eq_zero_of_no_dip _ thr hnb
  constructor
  · rw [integralScales, scalesFoldl_warn, Bool.false_or]
    refine List.any_eq_true.mpr ⟨col, hcol, ?_⟩
    rw [hcut]
    rfl
  · rw [integralScales, scalesFoldl_apply, if_pos hcol]
    have hcut2 : cutoffIndex (r0 :: rest) thr = 0 :=
      cutoffIndex_eq_zero_of_no_dip _ thr hnb
    simp only [integralScaleBody, hR, hidx, hcut2, Nat.cast_zero]
    rw [locUpTo_head_only ltail r0 rest hpos]
    simp

/-- Shared computation for C5: the time scale is `dt` times the label-based
slice sum, which under 1 Hz integer lag labels is the positional rectangular
sum through the cutoff index. -/
theorem integralScales_label_slice (df dfac : Frame ℚ) (cols : List String)
    (col : String) (thr : ℚ)
    (hcol : col ∈ cols)
    (hlag : dfac.idx = qlags 0 (dfac.getColD ("R_" ++ col)).length) :
    (integralScales df dfac cols thr).scales col =
      some (integralTimeScaleRect dfac col thr,
            |integralTimeScaleRect dfac col thr * listMean (df.getColD col)|) := by
  rw [integralScales, scalesFoldl_apply, if_pos hcol]
  simp only [integralScaleBody, integralTimeScaleRect, hlag, locUpTo_qlags,
    Nat.zero_le, if_true, Nat.sub_zero]

/-- C4 counterexample: a table whose autocorrelation never dips below the
threshold 1/4.  The scan leaves `cutoff_index = 0` and the warning is raised,
but the integration covers only the lag-0 entry (`Raa.loc[:0]`), giving time
scale `1 * dt = 1/2` - not the whole-table value `17/10` the claim (cutoff =
last index, scale computed over the entire table) requires. -/
theorem c4_counterexample :
    (integralScales c4DataFrame c4AutoTable ["Ux"] (1/4)).warn = true ∧
    (integralScales c4DataFrame c4AutoTable ["Ux"] (1/4)).scales "Ux" = some (1/2, 1) ∧
    integralTimeScaleWholeTable c4AutoTable "Ux" = 17/10 ∧
    ((1 : ℚ)/2) ≠ 17/10 := by
  have hnb : ∀ v ∈ ((1 : ℚ) :: [9/10, 4/5, 7/10]), ¬ v < (1/4 : ℚ) := by
    simp only [List.forall_mem_cons, List.forall_mem_nil]
    norm_num
  have hpos : ∀ l ∈ ([1/2, 1, 3/2] : List ℚ), 0 < l := by
    simp only [List.forall_mem_cons, List.forall_mem_nil]
    norm_num
  have h := integralScales_no_dip c4DataFrame c4AutoTable ["Ux"] "Ux" (1/4) 1
    [9/10, 4/5, 7/10] [1/2, 1, 3/2] (List.mem_cons_self "Ux" []) rfl rfl hpos hnb
  have hdt : c4AutoTable.idx.getD 1 0 - c4AutoTable.idx.getD 0 0 = 1/2 := by
    show (1/2 : ℚ) - 0 = 1/2
    norm_num
  have hmean : listMean (c4DataFrame.getColD "Ux") = 2 := by
    show listMean [(2 : ℚ), 2] = 2
    norm_num [listMean]
  refine ⟨h.1, ?_, ?_, by norm_num⟩
  · rw [h.2, hdt, hmean]
    norm_num
  · show ([(1 : ℚ), 9/10, 4/5, 7/10]).sum * (c4AutoTable.idx.getD 1 0 - c4AutoTable.idx.getD 0 0)
      = 17/10
    rw [hdt]
    norm_num

/-- C4: the claim says that when a channel's autocorrelation never falls
below the threshold, `integral_scales` takes the LAST index of the table as
the cutoff (integrating over the entire table) and raises a warning.  The
code disagrees on the cutoff: the scan of lines 163-167 leaves
`cutoff_index = 0` when no value dips below the threshold, so the label slice
`Raa.loc[:0]` (line 174) covers only the lag-0 entry.  Amended: the warning
is raised as claimed, but the time scale is the lag-0 autocorrelation value
times `dt`, not the sum over the entire table. -/
theorem c4_no_dip_integrates_lag0_only (df dfac : Frame ℚ) (cols : List String)
    (col : String) (thr r0 : ℚ) (rest ltail : List ℚ)
    (hcol : col ∈ cols)
    (hR : dfac.getColD ("R_" ++ col) = r0 :: rest)
    (hidx : dfac.idx = 0 :: ltail)
    (hpos : ∀ l ∈ ltail, 0 < l)
    (hnb : ∀ v ∈ r0 :: rest, ¬ v < thr) :
    (integralScales df dfac cols thr).warn = true ∧
    (integralScales df dfac cols thr).scales col =
      some (r0 * (dfac.idx.getD 1 0 - dfac.idx.getD 0 0),
            |r0 * (dfac.idx.getD 1 0 - dfac.idx.getD 0 0) * listMean (df.getColD col)|) :=
  integralScales_no_dip df dfac cols col thr r0 rest ltail hcol hR hidx hpos hnb

/-- C4 witness: the amended theorem applied to a two-row table with spacing
1/2 s whose autocorrelations 1 and 9/10 never dip below the threshold 1/4. -/
theorem c4_no_dip_witness :
    ("Ux" ∈ ["Ux"]) ∧
    c4WitnessTable.getColD "R_Ux" = (1 : ℚ) :: [9/10] ∧
    c4WitnessTable.idx = (0 : ℚ) :: [1/2] ∧
    (∀ l ∈ ([1/2] : List ℚ), 0 < l) ∧
    (∀ v ∈ ((1 : ℚ) :: [9/10]), ¬ v < (1/4 : ℚ)) ∧
    ((integralScales c4WitnessData c4WitnessTable ["Ux"] (1/4)).warn = true ∧
     (integralScales c4WitnessData c4WitnessTable ["Ux"] (1/4)).scales "Ux" =
       some (1 * (c4WitnessTable.idx.getD 1 0 - c4WitnessTable.idx.getD 0 0),
             |1 * (c4WitnessTable.idx.getD 1 0 - c4WitnessTable.idx.getD 0 0) *
               listMean (c4WitnessData.getColD "Ux")|)) :=
  ⟨List.mem_cons_self "Ux" [], rfl, rfl,
   by simp only [List.forall_mem_cons, List.forall_mem_nil]; norm_num,
   by simp only [List.forall_mem_cons, List.forall_mem_nil]; norm_num,
   c4_no_dip_integrates_lag0_only c4WitnessData c4WitnessTable ["Ux"] "Ux" (1/4) 1
     [9/10] [1/2] (List.mem_cons_self "Ux" []) rfl rfl
     (by simp only [List.forall_mem_cons, List.forall_mem_nil]; norm_num)
     (by simp only [List.forall_mem_cons, List.forall_mem_nil]; norm_num)⟩

/-- C5 counterexample: with lag spacing 1/2 s the scan finds the first dip at
position 2 (`cutoff_index = 2`), and `Raa.loc[:2]` slices by LABEL - all lags
up to 2 seconds, i.e. the whole 4-entry table - so the code returns time
scale `(1 + 4/5 + 1/10 + 9/10) * 1/2 = 7/5` and length scale `21/5`, while
the rectangular sum of the values at positions 0 through the cutoff index
times the spacing, as the claim states it, is `(1 + 4/5 + 1/10) * 1/2 =
19/20`. -/
theorem c5_counterexample :
    (integralScales c5DataFrame c5AutoTable ["Ux"] (1/4)).scales "Ux" =
      some (7/5, 21/5) ∧
    integralTimeScaleRect c5AutoTable "Ux" (1/4) = 19/20 ∧
    ((7 : ℚ)/5) ≠ 19/20 := by
  have hcut : cutoffIndex ([(1 : ℚ), 4/5, 1/10, 9/10]) (1/4) = 2 := by
    norm_num [cutoffIndex, List.findIdx?_cons]
  refine ⟨?_, ?_, by norm_num⟩
  · rw [integralScales, scalesFoldl_apply, if_pos (List.mem_cons_self "Ux" [])]
    show some ((locUpTo c5AutoTable.idx (c5AutoTable.getColD ("R_" ++ "Ux"))
        ((cutoffIndex (c5AutoTable.getColD ("R_" ++ "Ux")) (1/4) : ℕ) : ℚ)).sum *
          (c5AutoTable.idx.getD 1 0 - c5AutoTable.idx.getD 0 0),
        |(locUpTo c5AutoTable.idx (c5AutoTable.getColD ("R_" ++ "Ux"))
        ((cutoffIndex (c5AutoTable.getColD ("R_" ++ "Ux")) (1/4) : ℕ) : ℚ)).sum *
          (c5AutoTable.idx.getD 1 0 - c5AutoTable.idx.getD 0 0) *
          listMean (c5DataFrame.getColD "Ux")|) = some (7/5, 21/5)
    have hR : c5AutoTable.getColD ("R_" ++ "Ux") = [(1 : ℚ), 4/5, 1/10, 9/10] := rfl
    have hidx : c5AutoTable.idx = [(0 : ℚ), 1/2, 1, 3/2] := rfl
    rw [hR, hidx, hcut]
    have hloc : locUpTo [(0 : ℚ), 1/2, 1, 3/2] [(1 : ℚ), 4/5, 1/10, 9/10] ((2 : ℕ) : ℚ)
        = [(1 : ℚ), 4/5, 1/10, 9/10] := by
      norm_num [locUpTo, List.zip_cons_cons, List.filter_cons]
    rw [hloc]
    have hmean : listMean (c5DataFrame.getColD "Ux") = 3 := by
      show listMean [(3 : ℚ), 3] = 3
      norm_num [listMean]
    rw [hmean]
    norm_num
  · show (([(1 : ℚ), 4/5, 1/10, 9/10]).take
        (cutoffIndex ([(1 : ℚ), 4/5, 1/10, 9/10]) (1/4) + 1)).sum *
        (c5AutoTable.idx.getD 1 0 - c5AutoTable.idx.getD 0 0) = 19/20
    rw [hcut]
    show (([(1 : ℚ), 4/5, 1/10, 9/10]).take 3).sum * ((1/2 : ℚ) - 0) = 19/20
    norm_num

/-- C5: the claim says the integral time scale is the rectangular sum of the
autocorrelation values from lag 0 through the cutoff index times the uniform
sample spacing.  The code disagrees in general: `np.sum(Raa.loc[:cutoff_index])`
(line 174) is a LABEL-based slice - the positional cutoff index is compared
against the lag values in seconds — so the sum runs over all lags up to
`cutoff_index` seconds.  Amended: the time scale is `dt` times that
label-based slice sum; the positional reading of the claim holds exactly when
the lag labels equal the positions (1 Hz spacing), and the length scale
equals |time scale x channel mean| as claimed. -/
theorem c5_rect_sum_at_unit_spacing (df dfac : Frame ℚ) (cols : List String)
    (col : String) (thr : ℚ)
    (hcol : col ∈ cols)
    (hlag : dfac.idx = qlags 0 (dfac.getColD ("R_" ++ col)).length) :
    (integralScales df dfac cols thr).scales col =
      some (integralTimeScaleRect dfac col thr,
            |integralTimeScaleRect dfac col thr * listMean (df.getColD col)|) :=
  integralScales_label_slice df dfac cols col thr hcol hlag

/-- C5 witness: the amended theorem applied to a 1 Hz three-row table whose
first dip below the threshold 1/4 is at position 1. -/
theorem c5_rect_sum_witness :
    ("Ux" ∈ ["Ux"]) ∧
    c5WitnessTable.idx = qlags 0 (c5WitnessTable.getColD "R_Ux").length ∧
    (integralScales c5WitnessData c5WitnessTable ["Ux"] (1/4)).scales "Ux" =
      some (integralTimeScaleRect c5WitnessTable "Ux" (1/4),
            |integralTimeScaleRect c5WitnessTable "Ux" (1/4) *
              listMean (c5WitnessData.getColD "Ux")|) :=
  ⟨List.mem_cons_self "Ux" [],
   by show ([(0 : ℚ), 1, 2] : List ℚ) = qlags 0 3; norm_num [qlags, List.range'],
   c5_rect_sum_at_unit_spacing c5WitnessData c5WitnessTable ["Ux"] "Ux" (1/4)
     (List.mem_cons_self "Ux" [])
     (by show ([(0 : ℚ), 1, 2] : List ℚ) = qlags 0 3; norm_num [qlags, List.range'])⟩

/-- C6: the claim says `rms_variation` takes `(max-min)/min` of the
per-subinterval RMS values.  The code disagrees: `rmss.append(compute_rms(...))`
(line 480) appends the whole `(rms, turbulence intensity)` tuple, so
`np.min(rmss)`/`np.max(rmss)` reduce over the flattened pairs - pooling RMS
and TI values - contradicting the function's own comment ("difference in RMS
between min and max observed within subintervals").  On the 8-sample window
split into [1,1,7,7] (RMS 3, TI 3/4) and [2,2,4,4] (RMS 1, TI 1/3) the code
returns `(3 - 1/3)/(1/3) = 8`, while the claimed RMS-only variation is
`(3 - 1)/1 = 2`. -/
theorem c6_pools_rms_and_ti :
    rmsVariation rmsVarFrame 2 ["Ux"] = 8 ∧
    rmsVariationSpec rmsVarFrame 2 ["Ux"] = 2 := by
  have h9 : Real.sqrt 9 = 3 := by
    rw [show (9:ℝ) = 3^2 by norm_num, Real.sqrt_sq (by norm_num : (0:ℝ) ≤ 3)]
  have h1 : Real.sqrt 1 = 1 := Real.sqrt_one
  have h4 : |(4:ℝ)| = 4 := abs_of_nonneg (by norm_num)
  have h3 : |(3:ℝ)| = 3 := abs_of_nonneg (by norm_num)
  have hsplit : arraySplitFrame rmsVarFrame 2 =
      [⟨[0, 1, 2, 3], [("Ux", [(1:ℝ), 1, 7, 7])]⟩,
       ⟨[4, 5, 6, 7], [("Ux", [(2:ℝ), 2, 4, 4])]⟩] := rfl
  have hA : computeRms ⟨[0, 1, 2, 3], [("Ux", [(1:ℝ), 1, 7, 7])]⟩ "Ux" = (3, 3/4) := by
    have hg : (⟨[0, 1, 2, 3], [("Ux", [(1:ℝ), 1, 7, 7])]⟩ : Frame ℝ).getColD "Ux"
        = [(1:ℝ), 1, 7, 7] := rfl
    simp only [computeRms, hg]
    norm_num [listMean, h9, h4]
  have hB : computeRms ⟨[4, 5, 6, 7], [("Ux", [(2:ℝ), 2, 4, 4])]⟩ "Ux" = (1, 1/3) := by
    have hg : (⟨[4, 5, 6, 7], [("Ux", [(2:ℝ), 2, 4, 4])]⟩ : Frame ℝ).getColD "Ux"
        = [(2:ℝ), 2, 4, 4] := rfl
    simp only [computeRms, hg]
    norm_num [listMean, h1, h3]
  constructor
  · simp only [rmsVariation, hsplit, List.map_cons, List.map_nil, hA, hB,
      List.flatMap_cons, List.flatMap_nil, List.append_nil, List.cons_append,
      List.nil_append, listMin, listMax, List.foldl]
    norm_num [min_def, max_def]
  · simp only [rmsVariationSpec, hsplit, List.map_cons, List.map_nil, hA, hB,
      listMin, listMax, List.foldl]
    norm_num [min_def, max_def]

theorem filterMap_id_eq_nil {α : Type} (l : List (Option α)) (h : ∀ v ∈ l, v = none) :
    l.filterMap id = [] := by
  induction l with
  | nil => rfl
  | cons x t ih =>
    have hx := h x (List.mem_cons_self x t)
    subst hx
    simpa using ih (fun v hv => h v (List.mem_cons_of_mem _ hv))

theorem subMean_none_all_none (x : List (Option ℝ)) :
    ∀ v ∈ subMean x none, v = none := by
  intro v hv
  simp only [subMean, List.mem_map] at hv
  obtain ⟨a, _, rfl⟩ := hv
  cases a <;> rfl

theorem seriesMul_none_right (a b : List (Option ℝ)) (hb : ∀ q ∈ b, q = none) :
    ∀ v ∈ seriesMul a b, v = none := by
  induction a generalizing b with
  | nil =>
    intro v hv
    simp [seriesMul] at hv
  | cons x t ih =>
    cases b with
    | nil =>
      intro v hv
      simp [seriesMul] at hv
    | cons y s =>
      intro v hv
      have hy := hb y (List.mem_cons_self y s)
      subst hy
      simp only [seriesMul, List.zipWith_cons_cons, List.mem_cons] at hv
      rcases hv with h | h
      · subst h
        cases x <;> rfl
      · exact ih s (fun q hq => hb q (List.mem_cons_of_mem _ hq)) v h

theorem nanMean_eq_none_of_countValid_zero (x : List (Option ℝ))
    (h : countValid x = 0) : nanMean x = none := by
  have hnil : x.filterMap id = [] := List.length_eq_zero.mp h
  simp [nanMean, hnil]

theorem nanMean_all_none (x : List (Option ℝ)) (h : ∀ v ∈ x, v = none) :
    nanMean x = none := by
  simp [nanMean, filterMap_id_eq_nil x h]

theorem obukhov_bind_none (obF : ℝ → ℝ → ℝ → ℝ) (uS mH : Option ℝ) :
    (do pure (obF (← uS) (← (none : Option ℝ)) (← mH)) : Option ℝ) = none := by
  cases uS <;> rfl

theorem fluxRich_bind_none (frF : ℝ → ℝ → ℝ → ℝ → ℝ × ℝ) (mU mH uS : Option ℝ) :
    (do pure (frF (← mU) (← (none : Option ℝ)) (← mH) (← uS)) : Option (ℝ × ℝ)) = none := by
  cases mU <;> rfl

/-- C7 counterexample: a series whose sonic temperature channel has 0
non-missing samples (fewer than 2).  `compute_fluxes` does not fail - no
`FluxError` exists anywhere in the repository and the function has no raise
path - it returns normally: one flux row per input sample, NaN (`none`)
heat-flux outputs, and a well-defined friction velocity from the wind
channels.  The helper functions are instantiated with arbitrary closed-form
maps; none-propagation makes the outputs independent of them. -/
theorem c7_counterexample :
    countValid (missingTempFrame.getColD "Ts") = 0 ∧
    (computeFluxes (fun _ _ _ => 0) (fun _ _ _ _ => (0, 0)) missingTempFrame
        ("Ux", "Uy", "Uz") "Ts").wt = [none, none, none, none] ∧
    (computeFluxes (fun _ _ _ => 0) (fun _ _ _ _ => (0, 0)) missingTempFrame
        ("Ux", "Uy", "Uz") "Ts").wu.length = 4 ∧
    (computeFluxes (fun _ _ _ => 0) (fun _ _ _ _ => (0, 0)) missingTempFrame
        ("Ux", "Uy", "Uz") "Ts").derived.meanEddyHeatFlux = none ∧
    (computeFluxes (fun _ _ _ => 0) (fun _ _ _ _ => (0, 0)) missingTempFrame
        ("Ux", "Uy", "Uz") "Ts").derived.obukhovLength = none ∧
    (computeFluxes (fun _ _ _ => 0) (fun _ _ _ _ => (0, 0)) missingTempFrame
        ("Ux", "Uy", "Uz") "Ts").derived.fluxRi = none ∧
    (computeFluxes (fun _ _ _ => 0) (fun _ _ _ _ => (0, 0)) missingTempFrame
        ("Ux", "Uy", "Uz") "Ts").derived.frictionVelocity.isSome = true :=
  ⟨rfl, rfl, rfl, rfl, rfl, rfl, rfl⟩

/-- C7: the claim says `compute_fluxes` fails with `FluxError` when a
required channel has fewer than 2 non-missing samples.  The code disagrees:
no `FluxError` exists in the repository and `compute_fluxes` (lines 332-367)
performs no sample-count validation and has no raise path - `Series.mean`
skips NaN and yields NaN on an all-missing channel, and NaN propagates
pointwise.  Amended: `compute_fluxes` always returns normally; when the
temperature channel has no non-missing samples, every heat-flux entry and
every temperature-dependent derived parameter is a missing value rather than
an error. -/
theorem c7_no_flux_validation (obF : ℝ → ℝ → ℝ → ℝ) (frF : ℝ → ℝ → ℝ → ℝ → ℝ × ℝ)
    (df : Frame (Option ℝ)) (winds : String × String × String) (temp : String)
    (h : countValid (df.getColD temp) = 0) :
    (∀ v ∈ (computeFluxes obF frF df winds temp).wt, v = none) ∧
    (computeFluxes obF frF df winds temp).derived.meanEddyHeatFlux = none ∧
    (computeFluxes obF frF df winds temp).derived.obukhovLength = none ∧
    (computeFluxes obF frF df winds temp).derived.fluxRi = none ∧
    (computeFluxes obF frF df winds temp).derived.verticalWindGradient = none := by
  have hmt : nanMean (df.getColD temp) = none :=
    nanMean_eq_none_of_countValid_zero _ h
  simp only [computeFluxes, hmt]
  have hwt : ∀ v ∈ seriesMul (subMean (df.getColD winds.2.2) (nanMean (df.getColD winds.2.2)))
      (subMean (df.getColD temp) none), v = none :=
    seriesMul_none_right _ _ (subMean_none_all_none _)
  refine ⟨hwt, nanMean_all_none _ hwt, ?_, ?_, ?_⟩
  · rw [nanMean_all_none _ hwt]
    exact obukhov_bind_none obF _ _
  · rw [nanMean_all_none _ hwt, fluxRich_bind_none frF _ _ _]
    rfl
  · rw [nanMean_all_none _ hwt, fluxRich_bind_none frF _ _ _]
    rfl

/-- C7 witness: the amended theorem applied to the 4-sample frame with
constant winds and an entirely missing temperature channel. -/
theorem c7_no_flux_validation_witness :
    countValid (missingTempFrame.getColD "Ts") = 0 ∧
    ((∀ v ∈ (computeFluxes (fun _ _ _ => 1) (fun _ _ _ _ => (1, 1)) missingTempFrame
        ("Ux", "Uy", "Uz") "Ts").wt, v = none) ∧
     (computeFluxes (fun _ _ _ => 1) (fun _ _ _ _ => (1, 1)) missingTempFrame
        ("Ux", "Uy", "Uz") "Ts").derived.meanEddyHeatFlux = none ∧
     (computeFluxes (fun _ _ _ => 1) (fun _ _ _ _ => (1, 1)) missingTempFrame
        ("Ux", "Uy", "Uz") "Ts").derived.obukhovLength = none ∧
     (computeFluxes (fun _ _ _ => 1) (fun _ _ _ _ => (1, 1)) missingTempFrame
        ("Ux", "Uy", "Uz") "Ts").derived.fluxRi = none ∧
     (computeFluxes (fun _ _ _ => 1) (fun _ _ _ _ => (1, 1)) missingTempFrame
        ("Ux", "Uy", "Uz") "Ts").derived.verticalWindGradient = none) :=
  ⟨rfl, c7_no_flux_validation (fun _ _ _ => 1) (fun _ _ _ _ => (1, 1)) missingTempFrame
    ("Ux", "Uy", "Uz") "Ts" rfl⟩

/-- C8: aligning by an angle and then aligning the result by the negated
angle reproduces the original two wind components - exactly over the reals,
hence within floating tolerance in the implementation.  The two component
columns must exist and be distinct (the in-plane rotation of a pair). -/
theorem c8_align_roundtrip (df : Frame ℝ) (θ : ℝ) (c0 c1 : String) (ux uy : List ℝ)
    (hne : c0 ≠ c1) (h0 : df.getCol? c0 = some ux) (h1 : df.getCol? c1 = some uy)
    (hlen : ux.length = uy.length) :
    ∃ df1 df2, alignToDirection df θ (c0, c1) = some df1 ∧
      alignToDirection df1 (-θ) (c0, c1) = some df2 ∧
      df2.getCol? c0 = some ux ∧ df2.getCol? c1 = some uy := by
  set A := List.zipWith (fun x y => x * Real.cos θ + y * Real.sin θ) ux uy with hAdef
  set B := List.zipWith (fun x y => -x * Real.sin θ + y * Real.cos θ) ux uy with hBdef
  set df1 := (df.setCol c0 A).setCol c1 B with hdf1
  have hA : df1.getCol? c0 = some A := by
    rw [hdf1, Frame.getCol?_setCol_ne _ c1 c0 B hne, Frame.getCol?_setCol_self]
  have hB : df1.getCol? c1 = some B := by
    rw [hdf1, Frame.getCol?_setCol_self]
  set A2 := List.zipWith (fun x y => x * Real.cos (-θ) + y * Real.sin (-θ)) A B with hA2def
  set B2 := List.zipWith (fun x y => -x * Real.sin (-θ) + y * Real.cos (-θ)) A B with hB2def
  set df2 := (df1.setCol c0 A2).setCol c1 B2 with hdf2
  have halign1 : alignToDirection df θ (c0, c1) = some df1 := by
    simp only [alignToDirection, h0, h1]
  have halign2 : alignToDirection df1 (-θ) (c0, c1) = some df2 := by
    simp only [alignToDirection, hA, hB]
  have hA2ux : A2 = ux := by
    rw [hA2def, hAdef, hBdef, zipWith_zipWith_pair]
    have hf : (fun a b => (a * Real.cos θ + b * Real.sin θ) * Real.cos (-θ) +
        (-a * Real.sin θ + b * Real.cos θ) * Real.sin (-θ)) = (fun (a : ℝ) (_ : ℝ) => a) := by
      funext a b
      simp only [Real.cos_neg, Real.sin_neg]
      linear_combination a * Real.sin_sq_add_cos_sq θ
    rw [hf, zipWith_left_of_length_eq ux uy hlen]
  have hB2uy : B2 = uy := by
    rw [hB2def, hAdef, hBdef, zipWith_zipWith_pair]
    have hg : (fun a b => -(a * Real.cos θ + b * Real.sin θ) * Real.sin (-θ) +
        (-a * Real.sin θ + b * Real.cos θ) * Real.cos (-θ)) = (fun (_ : ℝ) (b : ℝ) => b) := by
      funext a b
      simp only [Real.cos_neg, Real.sin_neg]
      linear_combination b * Real.sin_sq_add_cos_sq θ
    rw [hg, zipWith_right_of_length_eq ux uy hlen]
  have hcol0 : df2.getCol? c0 = some ux := by
    rw [hdf2, Frame.getCol?_setCol_ne _ c1 c0 B2 hne, Frame.getCol?_setCol_self, hA2ux]
  have hcol1 : df2.getCol? c1 = some uy := by
    rw [hdf2, Frame.getCol?_setCol_self, hB2uy]
  exact ⟨df1, df2, halign1, halign2, hcol0, hcol1⟩

/-- C8 witness: the roundtrip theorem applied to a one-row frame at the
angle 37. -/
theorem c8_align_roundtrip_witness :
    (("Ux" : String) ≠ "Uy") ∧
    alignFrame.getCol? "Ux" = some [1] ∧
    alignFrame.getCol? "Uy" = some [2] ∧
    ([(1 : ℝ)]).length = ([(2 : ℝ)]).length ∧
    (∃ df1 df2, alignToDirection alignFrame (37 : ℝ) ("Ux", "Uy") = some df1 ∧
      alignToDirection df1 (-(37 : ℝ)) ("Ux", "Uy") = some df2 ∧
      df2.getCol? "Ux" = some [1] ∧ df2.getCol? "Uy" = some [2]) :=
  ⟨by decide, rfl, rfl, rfl,
   c8_align_roundtrip alignFrame 37 "Ux" "Uy" [1] [2] (by decide) rfl rfl rfl⟩

/-- C10: `align_to_direction` works on a copy (`df.copy()`, line 288) and
assigns only the two named wind columns: the returned frame keeps the
timestamp index and every other column of the input unchanged, and the input
frame itself is never mutated (the embedding of the function is pure because
the source copies before assigning). -/
theorem c10_align_frame_effect (df : Frame ℝ) (θ : ℝ) (c0 c1 : String) (df' : Frame ℝ)
    (h : alignToDirection df θ (c0, c1) = some df') :
    df'.idx = df.idx ∧
    ∀ c, c ≠ c0 → c ≠ c1 → df'.getCol? c = df.getCol? c := by
  unfold alignToDirection at h
  rcases hu : df.getCol? c0 with _ | ux
  · rw [hu] at h
    exact absurd h (by simp)
  rcases hv : df.getCol? c1 with _ | uy
  · rw [hu, hv] at h
    exact absurd h (by simp)
  rw [hu, hv] at h
  simp only [Option.some.injEq] at h
  subst h
  constructor
  · rw [Frame.idx_setCol, Frame.idx_setCol]
  · intro c hc0 hc1
    rw [Frame.getCol?_setCol_ne _ c1 c _ hc1, Frame.getCol?_setCol_ne _ c0 c _ hc0]

/-- C10 witness: the frame-effect theorem applied to a one-row frame with a
third column `Ts`, at angle 0. -/
theorem c10_align_frame_effect_witness :
    alignToDirection alignFrame 0 ("Ux", "Uy") = some alignFrameRot0 ∧
    (alignFrameRot0.idx = alignFrame.idx ∧
     ∀ c, c ≠ "Ux" → c ≠ "Uy" →
       alignFrameRot0.getCol? c = alignFrame.getCol? c) := by
  have hA : (1 : ℝ) * Real.cos 0 + 2 * Real.sin 0 = 1 := by simp
  have hB : -(1 : ℝ) * Real.sin 0 + 2 * Real.cos 0 = 2 := by simp
  have halign : alignToDirection alignFrame 0 ("Ux", "Uy") = some alignFrameRot0 := by
    show some (⟨[0], [("Ux", [(1 : ℝ) * Real.cos 0 + 2 * Real.sin 0]),
        ("Uy", [-(1 : ℝ) * Real.sin 0 + 2 * Real.cos 0]), ("Ts", [5])]⟩ : Frame ℝ)
      = some alignFrameRot0
    rw [hA, hB]
    rfl
  exact ⟨halign, c10_align_frame_effect alignFrame 0 "Ux" "Uy" alignFrameRot0 halign⟩

theorem sampleCov_self_pos (x : List ℝ) (h : sampleCov x x ≠ 0) : 0 < sampleCov x x := by
  have hsum : 0 ≤ (List.zipWith
      (fun a b => (a - listMean x) * (b - listMean x)) x x).sum := by
    rw [List.zipWith_same]
    apply List.sum_nonneg
    intro y hy
    simp only [List.mem_map] at hy
    obtain ⟨a, _, rfl⟩ := hy
    exact mul_self_nonneg _
  rcases Nat.lt_or_ge x.length 2 with hlt | hge
  · exfalso
    apply h
    interval_cases hn : x.length
    · have hx : x = [] := List.length_eq_zero.mp hn
      subst hx
      simp [sampleCov]
    · unfold sampleCov
      rw [hn]
      norm_num
  · have hd : (0 : ℝ) < (x.length : ℝ) - 1 := by
      have : (2 : ℝ) ≤ (x.length : ℝ) := by exact_mod_cast hge
      linarith
    have hnn : 0 ≤ sampleCov x x := div_nonneg hsum (le_of_lt hd)
    exact lt_of_le_of_ne hnn (Ne.symm h)

/-- C9: for any channel with nonzero variance the first entry of the
autocorrelation column built by `compute_autocorrs` - the value at lag 0 - is
exactly 1 over the reals, hence 1 within floating tolerance in the
implementation: `Series.autocorr(0)` is the Pearson correlation of the series
with itself, `cov(x,x) / (sqrt(cov(x,x)) * sqrt(cov(x,x)))`. -/
theorem c9_autocorr_lag0 (x : List ℝ) (maxlag : ℚ) (hvar : sampleCov x x ≠ 0)
    (hkept : 1 ≤ keptCount x.length maxlag) :
    (computeAutocorrsCol x maxlag).head? = some 1 := by
  have hpos := sampleCov_self_pos x hvar
  have hhead : (List.range (keptCount x.length maxlag)).head? = some 0 := by
    obtain ⟨m, hm⟩ : ∃ m, keptCount x.length maxlag = m + 1 :=
      ⟨keptCount x.length maxlag - 1, (Nat.succ_pred_eq_of_pos hkept).symm⟩
    rw [hm, List.range_succ_eq_map]
    rfl
  rw [computeAutocorrsCol, List.head?_map, hhead, Option.map_some']
  congr 1
  rw [autocorrAt, Nat.sub_zero, List.take_length, List.drop_zero, pearson,
    Real.mul_self_sqrt (le_of_lt hpos)]
  exact div_self hvar

/-- C9 witness: the lag-0 theorem applied to the two-sample channel [1, 2]
(variance 1/2) with the default max-lag fraction 1/2 (one table row). -/
theorem c9_autocorr_lag0_witness :
    sampleCov [(1 : ℝ), 2] [(1 : ℝ), 2] ≠ 0 ∧
    1 ≤ keptCount ([(1 : ℝ), 2]).length (1/2) ∧
    (computeAutocorrsCol [(1 : ℝ), 2] (1/2)).head? = some 1 := by
  have hvar : sampleCov [(1 : ℝ), 2] [(1 : ℝ), 2] ≠ 0 := by
    norm_num [sampleCov, listMean]
  have hkept : 1 ≤ keptCount ([(1 : ℝ), 2]).length (1/2) := by
    norm_num [keptCount]
  exact ⟨hvar, hkept, c9_autocorr_lag0 [(1 : ℝ), 2] (1/2) hvar hkept⟩
